import Mathlib

set_option maxRecDepth 4000

/-!
Verification of the event fan-out core of `standalone/src/main.rs`:
a bounded multi-consumer broadcast hub, the per-connection SSE stream
adapter, the anti-stall sentinel task, and the keep-alive configuration.

The Hub itself is the external broadcast primitive configured in `main`
(`broadcast::channel(10000)`); its ring-buffer/cursor semantics are not in
this repository's sources, so they are modelled from the spec (each such
definition says so in its doc comment).  The stream adapter loop, the
sentinel loop and the keep-alive configuration are translated directly
from `main.rs`.
-/

/-- The published unit.  In the source this is `ast::repo::StatusUpdate`
(an external crate); the core treats it as an opaque record whose only
observable is its serialized form, so we model it as that string. -/
structure StatusUpdate where
  payload : String
deriving Repr, DecidableEq

/-- `msg.as_json_str()` from the source: the opaque serialized form. -/
def StatusUpdate.as_json_str (u : StatusUpdate) : String := u.payload

/-- Modelled from the spec: the Broadcast Hub, a fixed-capacity circular
buffer shared by all cursors (`tokio::sync::broadcast` in the source,
external to this repository).  `history` is the full publish sequence;
the live ring holds its last `capacity` entries, older ones are evicted.
`closed` records hub shutdown. -/
structure Hub where
  capacity : Nat
  history : List StatusUpdate
  closed : Bool
deriving Repr, DecidableEq

/-- Index of the oldest entry still held in the ring buffer: everything
before `history.length - capacity` has been evicted. -/
def oldestIdx (hub : Hub) : Nat := hub.history.length - hub.capacity

/-- Modelled from the spec: `publish(event)` enqueues into the ring,
evicting the oldest entry when full (eviction is implicit here: the ring
is always the last `capacity` entries of `history`). -/
def publish (hub : Hub) (msg : StatusUpdate) : Hub :=
  { hub with history := hub.history ++ [msg] }

/-- Publishing a whole sequence of events in order. -/
def publishAll (hub : Hub) (msgs : List StatusUpdate) : Hub :=
  msgs.foldl publish hub

/-- Modelled from the spec: the publish entry point as seen by a caller
that could observe failure; the Hub offers no failure path. -/
def publishResult (hub : Hub) (msg : StatusUpdate) : Except String Hub :=
  Except.ok (publish hub msg)

/-- Modelled from the spec: `subscribe()` creates a cursor positioned at
the current tail of the buffer. A cursor is its read position into
`history`. -/
def subscribe (hub : Hub) : Nat := hub.history.length

/-- Hub shutdown (all senders dropped / process termination). -/
def close (hub : Hub) : Hub := { hub with closed := true }

/-- Outcome of one `receive` on a cursor: the next event, a lag
notification carrying the skip count, the terminal closed signal, or
pending (the call would suspend awaiting a publish). -/
inductive RecvResult where
  | ok (msg : StatusUpdate)
  | lagged (skipped : Nat)
  | closed
  | pending
deriving Repr, DecidableEq

/-- Modelled from the spec: `receive(cursor)` returns the next unread
event, or a lag notification whose skip count is the number of evicted
unread entries (repositioning the cursor to the oldest retained entry),
or closed once the hub is shut down and drained; otherwise it would
suspend.  Returns the outcome and the cursor's new position. -/
def recv (hub : Hub) (pos : Nat) : RecvResult × Nat :=
  if pos < oldestIdx hub then
    (.lagged (oldestIdx hub - pos), oldestIdx hub)
  else if h : pos < hub.history.length then
    (.ok hub.history[pos], pos + 1)
  else if hub.closed then
    (.closed, pos)
  else
    (.pending, pos)

/-- One SSE frame as built in `sse_handler`:
`Event::default().data(data).id(format!("{}", millis))`. -/
structure WireFrame where
  data : String
  id : String
deriving Repr, DecidableEq

/-- Frame construction from `sse_handler`: `data` is the event's
serialized payload, `id` the decimal rendering of the wall-clock
milliseconds read at emission time. -/
def mkEvent (msg : StatusUpdate) (nowMillis : Nat) : WireFrame :=
  { data := msg.as_json_str, id := toString nowMillis }

/-- Result of one pass of the adapter's `loop` in `sse_handler`: a frame
is returned (with the cursor's new position), the stream ends (`None`
on `RecvError::Closed`), or the loop is suspended in `recv`.  `lagLogs`
collects the skip counts printed by the `Lagged` arm on the way. -/
inductive StepResult where
  | frame (f : WireFrame) (pos : Nat) (lagLogs : List Nat)
  | done (lagLogs : List Nat)
  | waiting (pos : Nat) (lagLogs : List Nat)
deriving Repr, DecidableEq

/-- The adapter loop body from `sse_handler`, fuelled (the loop iterates
only on the `Lagged` arm, and a cursor cannot lag twice in a row against
an unchanged hub, so fuel 2 is exact — see `sseLoop_fuel_stable`). -/
def sseLoop (fuel : Nat) (hub : Hub) (nowMillis : Nat) (pos : Nat)
    (logs : List Nat) : StepResult :=
  match fuel with
  | 0 => .waiting pos logs
  | fuel + 1 =>
    match recv hub pos with
    | (.ok msg, pos') => .frame (mkEvent msg nowMillis) pos' logs
    | (.lagged k, pos') => sseLoop fuel hub nowMillis pos' (logs ++ [k])
    | (.closed, _) => .done logs
    | (.pending, pos') => .waiting pos' logs

/-- One poll of the `stream::unfold` closure in `sse_handler`. -/
def sseStep (hub : Hub) (nowMillis : Nat) (pos : Nat) : StepResult :=
  sseLoop 2 hub nowMillis pos []

/-- The uninhabited error type of the stream items
(`std::convert::Infallible` in the source). -/
inductive Infallible : Type

/-- One poll of the unfold closure with the item typed exactly as in the
source: `Some((Ok::<Event, Infallible>(event), rx))` on an event, `None`
at end of stream; the outer `none` stands for a suspended poll. -/
def sseUnfoldStep (hub : Hub) (nowMillis : Nat) (pos : Nat) :
    Option (Option (Except Infallible WireFrame × Nat)) :=
  match sseStep hub nowMillis pos with
  | .frame f pos' _ => some (some (Except.ok f, pos'))
  | .done _ => some none
  | .waiting _ _ => none

/-- Outcome of one pass of the sentinel's `while let Ok(_) =
dummy_rx.recv().await` loop in `main`: the body runs (discarding the
event) and the loop repeats, or the `while let` pattern fails on an
`Err` — `Lagged` or `Closed` alike — and the task ends, dropping its
cursor. -/
inductive SentinelOutcome where
  | keepLooping (pos : Nat)
  | exited
  | waiting (pos : Nat)
deriving Repr, DecidableEq

/-- One pass of the sentinel loop from `main`. -/
def sentinelStep (hub : Hub) (pos : Nat) : SentinelOutcome :=
  match recv hub pos with
  | (.ok _, pos') => .keepLooping pos'
  | (.lagged _, _) => .exited
  | (.closed, _) => .exited
  | (.pending, pos') => .waiting pos'

/-- Keep-alive configuration from `sse_handler`:
`KeepAlive::new().interval(Duration::from_millis(500)).text("ping")`. -/
structure KeepAliveConfig where
  intervalMs : Nat
  text : String
deriving Repr, DecidableEq

/-- The configuration literally passed to `Sse::keep_alive` in the
source. -/
def keepAliveConfig : KeepAliveConfig := { intervalMs := 500, text := "ping" }

/-- Modelled from the spec: a heartbeat frame (rendered by axum's
`KeepAlive`, external to this repository) carries only the fixed marker
text configured in the source — no event data, no id. -/
structure HeartbeatFrame where
  marker : String
deriving Repr, DecidableEq

/-- The heartbeat frame emitted on an idle stream. -/
def heartbeatFrame : HeartbeatFrame := { marker := keepAliveConfig.text }

/-- Modelled from the spec: the keep-alive emitter as a millisecond
ticker.  `since` is the time since the last emitted frame; a heartbeat
fires on the tick that completes a full interval of silence, resetting
the timer.  `heartbeatTicks interval d since` counts the heartbeats
fired during `d` further milliseconds with no data frame. -/
def heartbeatTicks (interval : Nat) : Nat → Nat → Nat
  | 0, _ => 0
  | d + 1, since =>
    if since + 1 ≥ interval then 1 + heartbeatTicks interval d 0
    else heartbeatTicks interval d (since + 1)

/-- The clock history of a stream: `clk i` is the wall-clock millisecond
reading taken when the stream's `i`-th frame is emitted
(`SystemTime::now()` in the source, an input of the model). -/
def expectedFrames (clk : Nat → Nat) : List StatusUpdate → List WireFrame
  | [] => []
  | m :: ms => mkEvent m (clk 0) :: expectedFrames (fun i => clk (i + 1)) ms

/-- Repeated polling of the adapter's stream until it ends or suspends:
returns the frames emitted (the `i`-th stamped with clock reading
`clk i`), the lag skip counts logged, and whether the stream reached its
end (`true`) rather than suspending. -/
def drainAux (hub : Hub) (clk : Nat → Nat) :
    Nat → Nat → List WireFrame × List Nat × Bool
  | 0, _ => ([], [], false)
  | fuel + 1, pos =>
    match sseStep hub (clk 0) pos with
    | .frame f pos' logs =>
      let r := drainAux hub (fun i => clk (i + 1)) fuel pos'
      (f :: r.1, logs ++ r.2.1, r.2.2)
    | .done logs => ([], logs, true)
    | .waiting _ logs => ([], logs, false)

/-- Full run of a stream adapter from cursor position `pos` against a
fixed hub state (fuel `history.length + 1` always suffices: every frame
strictly advances the cursor). -/
def drain (hub : Hub) (clk : Nat → Nat) (pos : Nat) :
    List WireFrame × List Nat × Bool :=
  drainAux hub clk (hub.history.length + 1) pos

/-- The five events of the spec's overflow scenario. -/
def exEvents : List StatusUpdate := [⟨"E1"⟩, ⟨"E2"⟩, ⟨"E3"⟩, ⟨"E4"⟩, ⟨"E5"⟩]

/-- A sample event for concrete instantiations. -/
def uA : StatusUpdate := { payload := "a" }

/-- A second sample event for concrete instantiations. -/
def uB : StatusUpdate := { payload := "b" }

theorem oldestIdx_le_length (hub : Hub) : oldestIdx hub ≤ hub.history.length :=
  Nat.sub_le _ _

theorem recv_lag (hub : Hub) (pos : Nat) (h : pos < oldestIdx hub) :
    recv hub pos = (.lagged (oldestIdx hub - pos), oldestIdx hub) := by
  simp [recv, h]

theorem recv_ok (hub : Hub) (pos : Nat) (h1 : oldestIdx hub ≤ pos)
    (h2 : pos < hub.history.length) :
    recv hub pos = (.ok hub.history[pos], pos + 1) := by
  simp [recv, Nat.not_lt.mpr h1, h2]

theorem recv_end (hub : Hub) (pos : Nat) (h : hub.history.length ≤ pos) :
    recv hub pos = ((if hub.closed then .closed else .pending), pos) := by
  have h1 : ¬ pos < oldestIdx hub :=
    Nat.not_lt.mpr (le_trans (oldestIdx_le_length hub) h)
  have h2 : ¬ pos < hub.history.length := Nat.not_lt.mpr h
  cases hc : hub.closed <;> simp [recv, h1, h2, hc]

theorem sseStep_ok (hub : Hub) (now pos : Nat) (h1 : oldestIdx hub ≤ pos)
    (h2 : pos < hub.history.length) :
    sseStep hub now pos = .frame (mkEvent hub.history[pos] now) (pos + 1) [] := by
  simp [sseStep, sseLoop, recv_ok hub pos h1 h2]

theorem sseStep_end (hub : Hub) (now pos : Nat) (h : hub.history.length ≤ pos) :
    sseStep hub now pos = if hub.closed then .done [] else .waiting pos [] := by
  cases hc : hub.closed <;> simp [sseStep, sseLoop, recv_end hub pos h, hc]

theorem sseStep_lag (hub : Hub) (now pos : Nat) (hcap : 0 < hub.capacity)
    (h : pos < oldestIdx hub) :
    ∃ holt : oldestIdx hub < hub.history.length,
      sseStep hub now pos =
        .frame (mkEvent hub.history[oldestIdx hub] now) (oldestIdx hub + 1)
          [oldestIdx hub - pos] := by
  have holt : oldestIdx hub < hub.history.length := by
    unfold oldestIdx at h ⊢; omega
  refine ⟨holt, ?_⟩
  simp [sseStep, sseLoop, recv_lag hub pos h,
        recv_ok hub (oldestIdx hub) (le_refl _) holt]

theorem publishAll_def (hub : Hub) (msgs : List StatusUpdate) :
    publishAll hub msgs = { hub with history := hub.history ++ msgs } := by
  induction msgs generalizing hub with
  | nil => simp [publishAll]
  | cons m ms ih =>
    show publishAll (publish hub m) ms = _
    rw [ih]
    simp [publish]

theorem expectedFrames_map_data (clk : Nat → Nat) (ms : List StatusUpdate) :
    (expectedFrames clk ms).map WireFrame.data =
      ms.map StatusUpdate.as_json_str := by
  induction ms generalizing clk with
  | nil => rfl
  | cons m ms ih => simp [expectedFrames, mkEvent, ih]

theorem expectedFrames_map_id (clk : Nat → Nat) (ms : List StatusUpdate) :
    (expectedFrames clk ms).map WireFrame.id =
      (List.range ms.length).map (fun i => toString (clk i)) := by
  induction ms generalizing clk with
  | nil => rfl
  | cons m ms ih =>
    simp [expectedFrames, mkEvent, List.range_succ_eq_map, ih, List.map_map,
          Function.comp]

theorem expectedFrames_length (clk : Nat → Nat) (ms : List StatusUpdate) :
    (expectedFrames clk ms).length = ms.length := by
  induction ms generalizing clk with
  | nil => rfl
  | cons m ms ih => simp [expectedFrames, ih]

theorem drainAux_caughtUp (hub : Hub) (fuel : Nat) :
    ∀ (clk : Nat → Nat) (pos : Nat), oldestIdx hub ≤ pos →
      pos ≤ hub.history.length → hub.history.length - pos < fuel →
      drainAux hub clk fuel pos =
        (expectedFrames clk (hub.history.drop pos), [], hub.closed) := by
  induction fuel with
  | zero => intro clk pos _ _ h3; omega
  | succ fuel ih =>
    intro clk pos h1 h2 h3
    rcases Nat.lt_or_ge pos hub.history.length with hlt | hge
    · have hih := ih (fun i => clk (i + 1)) (pos + 1) (by omega) hlt (by omega)
      rw [drainAux, sseStep_ok hub (clk 0) pos h1 hlt]
      simp only [hih]
      rw [List.drop_eq_getElem_cons hlt]
      simp [expectedFrames]
    · have hpos : pos = hub.history.length := le_antisymm h2 hge
      subst hpos
      rw [drainAux, sseStep_end hub (clk 0) _ (le_refl _)]
      cases hc : hub.closed <;> simp [expectedFrames]

theorem drain_spec (hub : Hub) (clk : Nat → Nat) (pos : Nat)
    (hcap : 0 < hub.capacity) (hpos : pos ≤ hub.history.length) :
    drain hub clk pos =
      (expectedFrames clk (hub.history.drop (max pos (oldestIdx hub))),
       (if pos < oldestIdx hub then [oldestIdx hub - pos] else []),
       hub.closed) := by
  rcases Nat.lt_or_ge pos (oldestIdx hub) with hlag | hcaught
  · have hmax : max pos (oldestIdx hub) = oldestIdx hub :=
      Nat.max_eq_right (le_of_lt hlag)
    obtain ⟨holt, hstep⟩ := sseStep_lag hub (clk 0) pos hcap hlag
    have hih := drainAux_caughtUp hub hub.history.length (fun i => clk (i + 1))
      (oldestIdx hub + 1) (by omega) (by omega) (by omega)
    rw [drain, drainAux, hstep]
    simp only [hih]
    rw [hmax, List.drop_eq_getElem_cons holt]
    simp [expectedFrames, hlag]
  · have hmax : max pos (oldestIdx hub) = pos := Nat.max_eq_left hcaught
    rw [drain, drainAux_caughtUp hub _ clk pos hcaught hpos (by omega)]
    simp [hmax, Nat.not_lt.mpr hcaught]

theorem sseLoop_noLag (hub : Hub) (now pos : Nat) (h1 : oldestIdx hub ≤ pos) :
    ∀ (n : Nat) (logs : List Nat),
      sseLoop (n + 1) hub now pos logs = sseLoop 1 hub now pos logs := by
  intro n logs
  rcases Nat.lt_or_ge pos hub.history.length with hlt | hge
  · simp [sseLoop, recv_ok hub pos h1 hlt]
  · cases hc : hub.closed <;> simp [sseLoop, recv_end hub pos hge, hc]

/-- Fuel 2 is exact for the adapter loop: a cursor cannot lag twice in a
row against an unchanged hub, so extra fuel never changes the result. -/
theorem sseLoop_fuel_stable (hub : Hub) (now pos : Nat) (n : Nat)
    (logs : List Nat) :
    sseLoop (n + 2) hub now pos logs = sseLoop 2 hub now pos logs := by
  rcases Nat.lt_or_ge pos (oldestIdx hub) with hlag | hok
  · have hrc := recv_lag hub pos hlag
    show sseLoop (n + 1 + 1) hub now pos logs = sseLoop (1 + 1) hub now pos logs
    rw [sseLoop, sseLoop, hrc]
    exact sseLoop_noLag hub now (oldestIdx hub) (le_refl _) n _
  · rw [show n + 2 = (n + 1) + 1 by omega, sseLoop_noLag hub now pos hok (n + 1),
        ← sseLoop_noLag hub now pos hok 1]

theorem heartbeatTicks_count (interval : Nat) (hi : 0 < interval) :
    ∀ (d s : Nat), s < interval →
      heartbeatTicks interval d s = (d + s) / interval - s / interval := by
  intro d
  induction d with
  | zero => intro s hs; simp [heartbeatTicks]
  | succ d ih =>
    intro s hs
    by_cases h : s + 1 ≥ interval
    · have hsi : s + 1 = interval := by omega
      simp only [heartbeatTicks, if_pos h]
      rw [ih 0 hi]
      have h1 : (d + 1 + s) / interval = d / interval + 1 := by
        rw [show d + 1 + s = d + interval by omega, Nat.add_div_right _ hi]
      rw [h1, Nat.div_eq_of_lt hs]
      simp [Nat.add_comm]
    · simp only [heartbeatTicks, if_neg h]
      rw [ih (s + 1) (by omega), show d + (s + 1) = d + 1 + s by omega,
          Nat.div_eq_of_lt hs, Nat.div_eq_of_lt (show s + 1 < interval by omega)]

theorem recv_lagged_inv (hub : Hub) (pos k p' : Nat)
    (h : recv hub pos = (.lagged k, p')) :
    pos < oldestIdx hub ∧ k = oldestIdx hub - pos ∧ p' = oldestIdx hub := by
  by_cases h1 : pos < oldestIdx hub
  · rw [recv_lag hub pos h1, Prod.mk.injEq] at h
    obtain ⟨ha, hb⟩ := h
    injection ha with hk
    exact ⟨h1, hk.symm, hb.symm⟩
  · exfalso
    rcases Nat.lt_or_ge pos hub.history.length with h2 | h2
    · rw [recv_ok hub pos (Nat.le_of_not_lt h1) h2] at h
      simp at h
    · rw [recv_end hub pos h2] at h
      cases hc : hub.closed <;> rw [hc] at h <;> simp at h

theorem recv_ok_inv (hub : Hub) (pos : Nat) (msg : StatusUpdate) (p' : Nat)
    (h : recv hub pos = (.ok msg, p')) :
    ∃ hi : pos < hub.history.length,
      msg = hub.history[pos] ∧ p' = pos + 1 := by
  by_cases h1 : pos < oldestIdx hub
  · rw [recv_lag hub pos h1] at h
    simp at h
  · rcases Nat.lt_or_ge pos hub.history.length with h2 | h2
    · rw [recv_ok hub pos (Nat.le_of_not_lt h1) h2, Prod.mk.injEq] at h
      obtain ⟨ha, hb⟩ := h
      injection ha with hm
      exact ⟨h2, hm.symm, hb.symm⟩
    · exfalso
      rw [recv_end hub pos h2] at h
      cases hc : hub.closed <;> rw [hc] at h <;> simp at h

theorem sseLoop_frame_inv (hub : Hub) (now : Nat) :
    ∀ (fuel pos : Nat) (logs : List Nat) (f : WireFrame) (p' : Nat)
      (l : List Nat), sseLoop fuel hub now pos logs = .frame f p' l →
      ∃ i, ∃ hi : i < hub.history.length,
        f = mkEvent hub.history[i] now := by
  intro fuel
  induction fuel with
  | zero =>
    intro pos logs f p' l h
    simp [sseLoop] at h
  | succ fuel ih =>
    intro pos logs f p' l h
    rw [sseLoop] at h
    rcases hrc : recv hub pos with ⟨r, p2⟩
    rw [hrc] at h
    cases r with
    | ok msg =>
      simp only [StepResult.frame.injEq] at h
      obtain ⟨hi, hm, _⟩ := recv_ok_inv hub pos msg p2 hrc
      exact ⟨pos, hi, by rw [← h.1, hm]⟩
    | lagged k => exact ih p2 (logs ++ [k]) f p' l h
    | closed => simp at h
    | pending => simp at h

/-- C1: a cursor created before any publish and left unread while more
events than the buffer capacity are published observes, on reading, a
single lag notification whose skip count is exactly the number of events
it failed to observe (`es.length - cap`), then the remaining buffered
events in publish order, and nothing else (the run completes with no
further delivery).  Spec scenario: capacity 3, publishes E1..E5 →
lag(2), then E3, E4, E5. -/
theorem overflow_lag_exact_count (cap : Nat) (es : List StatusUpdate)
    (clk : Nat → Nat) (hcap : 0 < cap) (hlen : cap < es.length) :
    drain (close (publishAll (Hub.mk cap [] false) es)) clk
        (subscribe (Hub.mk cap [] false)) =
      (expectedFrames clk (es.drop (es.length - cap)),
       [es.length - cap], true) := by
  have hh : close (publishAll (Hub.mk cap [] false) es) =
      Hub.mk cap es true := by
    rw [publishAll_def]
    rfl
  rw [hh, show subscribe (Hub.mk cap [] false) = 0 from rfl,
      drain_spec (Hub.mk cap es true) clk 0 hcap (Nat.zero_le _)]
  have h0 : (0 : Nat) < oldestIdx (Hub.mk cap es true) := by
    simp only [oldestIdx]
    omega
  rw [Nat.max_eq_right (Nat.le_of_lt h0), if_pos h0]
  simp [oldestIdx]

/-- C1 witness: the spec's concrete scenario — capacity 3, E1..E5. -/
theorem overflow_lag_exact_count_witness :
    drain (close (publishAll (Hub.mk 3 [] false) exEvents)) (fun i => i)
        (subscribe (Hub.mk 3 [] false)) =
      (expectedFrames (fun i => i) (exEvents.drop (exEvents.length - 3)),
       [exEvents.length - 3], true) :=
  overflow_lag_exact_count 3 exEvents (fun i => i) (by decide) (by decide)

/-- C2 counterexample: with the hub still open, a lagged cursor makes the
sentinel's `while let Ok(_)` loop exit (its pattern fails on the
`Lagged` error), dropping the cursor — refuting the claim that the loop
discards every lag notification and never terminates while the hub is
open. -/
theorem sentinel_exits_on_lag_example :
    sentinelStep (Hub.mk 1 [uA, uB] false) 0 = .exited
      ∧ (Hub.mk 1 [uA, uB] false).closed = false :=
  ⟨rfl, rfl⟩

/-- C2 amended: the sentinel's loop discards every successfully received
event and keeps looping, but it terminates — dropping its cursor — on
the first `receive` error, lag and closed alike; it only runs forever
while it stays caught up on an open hub. -/
theorem sentinel_loop_behavior (hub : Hub) (pos : Nat) :
    (∀ msg p', recv hub pos = (.ok msg, p') →
        sentinelStep hub pos = .keepLooping p')
    ∧ (sentinelStep hub pos = .exited ↔
        (recv hub pos).1 = .closed ∨ ∃ k, (recv hub pos).1 = .lagged k) := by
  rcases hrc : recv hub pos with ⟨r, p2⟩
  constructor
  · intro msg p' h
    rw [Prod.mk.injEq] at h
    obtain ⟨h1, h2⟩ := h
    subst h1
    subst h2
    simp [sentinelStep, hrc]
  · cases r <;> simp [sentinelStep, hrc]

/-- C2 witness for the amended claim: a caught-up sentinel keeps
looping after discarding a received event. -/
theorem sentinel_loop_behavior_witness :
    sentinelStep (Hub.mk 10 [uA] false) 0 = .keepLooping 1 :=
  (sentinel_loop_behavior (Hub.mk 10 [uA] false) 0).1 uA 1 rfl

/-- C3: one pass of the stream adapter loop: a received event yields
exactly one frame carrying its serialized payload as `data` and the
current milliseconds reading as `id`; a lag notification yields no frame
of its own — the skip count is logged and the loop continues from the
resumed position (which cannot lag again immediately); `closed` ends the
sequence as a normal end of stream. -/
theorem adapter_loop_behavior (hub : Hub) (now pos : Nat) :
    (∀ msg p', recv hub pos = (.ok msg, p') →
        sseStep hub now pos =
          .frame { data := msg.as_json_str, id := toString now } p' [])
    ∧ (∀ k p', recv hub pos = (.lagged k, p') →
        sseStep hub now pos = sseLoop 1 hub now p' [k]
          ∧ ∀ k', (recv hub p').1 ≠ .lagged k')
    ∧ (∀ p', recv hub pos = (.closed, p') → sseStep hub now pos = .done []) := by
  refine ⟨?_, ?_, ?_⟩
  · intro msg p' h
    simp [sseStep, sseLoop, h, mkEvent]
  · intro k p' h
    obtain ⟨hlag, hk, hp⟩ := recv_lagged_inv hub pos k p' h
    constructor
    · simp [sseStep, sseLoop, h]
    · intro k' hk'
      rcases hrc : recv hub p' with ⟨r, p2⟩
      rw [hrc] at hk'
      simp only at hk'
      subst hk'
      obtain ⟨hcon, _, _⟩ := recv_lagged_inv hub p' k' p2 hrc
      rw [hp] at hcon
      exact absurd hcon (lt_irrefl _)
  · intro p' h
    simp [sseStep, sseLoop, h]

/-- C3 witness: a received event yields its frame; a closed hub ends the
stream. -/
theorem adapter_loop_behavior_witness :
    sseStep (Hub.mk 10 [uA] false) 7 0 =
        .frame { data := uA.as_json_str, id := toString 7 } 1 []
      ∧ sseStep (Hub.mk 10 ([] : List StatusUpdate) true) 7 0 = .done [] :=
  ⟨(adapter_loop_behavior (Hub.mk 10 [uA] false) 7 0).1 uA 1 rfl,
   (adapter_loop_behavior (Hub.mk 10 ([] : List StatusUpdate) true) 7 0).2.2
     0 rfl⟩

/-- C4: a cursor created by `subscribe` is positioned at the tail of the
buffer: over any later publishes `es`, the frames it receives are
exactly the events of `es` (minus, under overflow, the earliest ones it
lagged past) — never an event published before it joined. -/
theorem subscribe_sees_only_new (hub : Hub) (es : List StatusUpdate)
    (clk : Nat → Nat) (hcap : 0 < hub.capacity) :
    (drain (close (publishAll hub es)) clk (subscribe hub)).1 =
      expectedFrames clk (es.drop (es.length - hub.capacity)) := by
  rw [publishAll_def,
      show close { hub with history := hub.history ++ es } =
        Hub.mk hub.capacity (hub.history ++ es) true from rfl,
      show subscribe hub = hub.history.length from rfl,
      drain_spec (Hub.mk hub.capacity (hub.history ++ es) true) clk
        hub.history.length hcap (by simp)]
  have ho : max hub.history.length
      (oldestIdx (Hub.mk hub.capacity (hub.history ++ es) true)) =
      hub.history.length + (es.length - hub.capacity) := by
    simp only [oldestIdx, List.length_append]
    omega
  simp only [ho]
  rw [List.drop_append]

/-- C4 witness: capacity 2, one historical event, three new ones — the
subscriber sees only (a suffix of) the new events. -/
theorem subscribe_sees_only_new_witness :
    (drain (close (publishAll (Hub.mk 2 [uA] false) [uB, ⟨"c"⟩, ⟨"d"⟩]))
        (fun i => i) (subscribe (Hub.mk 2 [uA] false))).1 =
      expectedFrames (fun i => i)
        (([uB, ⟨"c"⟩, ⟨"d"⟩] : List StatusUpdate).drop
          (([uB, ⟨"c"⟩, ⟨"d"⟩] : List StatusUpdate).length - 2)) :=
  subscribe_sees_only_new (Hub.mk 2 [uA] false) [uB, ⟨"c"⟩, ⟨"d"⟩]
    (fun i => i) (by decide)

/-- C5: every data frame the adapter loop emits has `id` the decimal
rendering of the milliseconds-since-epoch reading and `data` the
serialized payload of a published event; heartbeat frames instead carry
only the fixed marker `"ping"`, configured at a 500 ms cadence. -/
theorem wire_frame_fields (hub : Hub) (now pos : Nat) :
    (∀ f p' l, sseStep hub now pos = .frame f p' l →
        f.id = toString now ∧
        ∃ i, ∃ hi : i < hub.history.length,
          f.data = hub.history[i].as_json_str)
    ∧ heartbeatFrame.marker = "ping" ∧ keepAliveConfig.intervalMs = 500 := by
  refine ⟨?_, rfl, rfl⟩
  intro f p' l h
  obtain ⟨i, hi, hf⟩ := sseLoop_frame_inv hub now 2 pos [] f p' l h
  subst hf
  exact ⟨rfl, i, hi, rfl⟩

/-- C5 witness: the frame emitted for a concrete event at clock reading
3 carries id "3" and the event's payload. -/
theorem wire_frame_fields_witness :
    (mkEvent uA 3).id = toString 3 ∧
      ∃ i, ∃ hi : i < (Hub.mk 10 [uA] true).history.length,
        (mkEvent uA 3).data = ((Hub.mk 10 [uA] true).history[i]).as_json_str :=
  (wire_frame_fields (Hub.mk 10 [uA] true) 3 0).1 (mkEvent uA 3) 1 [] rfl

/-- C6 amended: within one stream the emitted ids are the decimal
renderings of the successive wall-clock readings taken per frame, so
they are monotonically non-decreasing whenever those clock readings are;
the code reads `SystemTime::now` afresh for each frame and adds no
monotonicity enforcement of its own. -/
theorem frame_ids_monotone_of_clock (hub : Hub) (clk : Nat → Nat)
    (pos : Nat) (hcap : 0 < hub.capacity) (hpos : pos ≤ hub.history.length)
    (hclk : ∀ i j, i ≤ j → clk i ≤ clk j) :
    ((drain hub clk pos).1.map WireFrame.id =
        (List.range (drain hub clk pos).1.length).map
          (fun i => toString (clk i)))
    ∧ List.Chain' (fun a b => a ≤ b)
        ((List.range (drain hub clk pos).1.length).map clk) := by
  constructor
  · rw [drain_spec hub clk pos hcap hpos]
    simp [expectedFrames_map_id, expectedFrames_length]
  · rw [List.chain'_map]
    cases hn : (drain hub clk pos).1.length with
    | zero => simp
    | succ n =>
      rw [List.chain'_range_succ]
      intro m _
      exact hclk m (m + 1) (by omega)

/-- C6 witness for the amended claim: with the identity clock the ids
render the successive readings and are non-decreasing. -/
theorem frame_ids_monotone_witness :
    ((drain (Hub.mk 3 exEvents true) (fun i => i) 0).1.map WireFrame.id =
        (List.range
            (drain (Hub.mk 3 exEvents true) (fun i => i) 0).1.length).map
          (fun i => toString i))
      ∧ List.Chain' (fun a b => a ≤ b)
          ((List.range
              (drain (Hub.mk 3 exEvents true) (fun i => i) 0).1.length).map
            (fun i => i)) :=
  frame_ids_monotone_of_clock (Hub.mk 3 exEvents true) (fun i => i) 0
    (by decide) (Nat.zero_le _) (fun i j h => h)

/-- C6 counterexample: a legal execution whose two successive wall-clock
readings are 5 ms then 4 ms (the system clock stepped back) emits frames
with ids "5" then "4" — the delivery identifiers of successive frames
are not monotonically non-decreasing. -/
theorem frame_ids_can_decrease :
    (drain (Hub.mk 10 [uA, uB] true) (fun i => 5 - i) 0).1.map WireFrame.id
        = [toString 5, toString 4]
      ∧ ¬ List.Chain' (fun a b => a ≤ b)
          ((List.range
              (drain (Hub.mk 10 [uA, uB] true) (fun i => 5 - i) 0).1.length).map
            (fun i => 5 - i)) := by
  constructor
  · rfl
  · intro hch
    have h54 : (List.range
        (drain (Hub.mk 10 [uA, uB] true) (fun i => 5 - i) 0).1.length).map
          (fun i => 5 - i) = [5, 4] := rfl
    rw [h54, List.chain'_cons] at hch
    exact absurd hch.1 (by omega)

/-- C7: on an open stream with zero published events for a duration of
D ms with D > 500, the keep-alive emitter fires at least ⌊D/500⌋
heartbeats, and the stream adapter emits zero data frames (a caught-up
cursor with nothing published yields no frame). -/
theorem heartbeat_cadence (D : Nat) (hub : Hub) (clk : Nat → Nat)
    (hD : 500 < D) (hcap : 0 < hub.capacity) :
    D / 500 ≤ heartbeatTicks keepAliveConfig.intervalMs D 0
    ∧ (drain hub clk hub.history.length).1 = [] := by
  constructor
  · rw [show keepAliveConfig.intervalMs = 500 from rfl,
        heartbeatTicks_count 500 (by omega) D 0 (by omega)]
    simp
  · rw [drain_spec hub clk hub.history.length hcap (le_refl _),
        Nat.max_eq_left (oldestIdx_le_length hub)]
    simp [List.drop_length, expectedFrames]

/-- C7 witness: 1001 ms of silence yields at least ⌊1001/500⌋ = 2
heartbeats and no data frames. -/
theorem heartbeat_cadence_witness :
    1001 / 500 ≤ heartbeatTicks keepAliveConfig.intervalMs 1001 0
    ∧ (drain (Hub.mk 5 ([] : List StatusUpdate) false) (fun i => i) 0).1
        = [] :=
  heartbeat_cadence 1001 (Hub.mk 5 ([] : List StatusUpdate) false)
    (fun i => i) (by omega) (by decide)

/-- C8: publishing never signals failure and completes independently of
the cursors: it is a total operation whose result is just the event
appended to the buffer (no cursor state occurs in its input), and the
published event is immediately visible to a caught-up cursor. -/
theorem publish_never_fails (hub : Hub) (msg : StatusUpdate) :
    publishResult hub msg = Except.ok (publish hub msg)
    ∧ (publish hub msg).history = hub.history ++ [msg]
    ∧ (0 < hub.capacity →
        recv (publish hub msg) hub.history.length =
          (.ok msg, hub.history.length + 1)) := by
  refine ⟨rfl, rfl, fun hcap => ?_⟩
  have h2 : hub.history.length < (publish hub msg).history.length := by
    simp [publish]
  have h1 : oldestIdx (publish hub msg) ≤ hub.history.length := by
    simp only [oldestIdx, publish, List.length_append, List.length_cons,
      List.length_nil]
    omega
  rw [recv_ok (publish hub msg) hub.history.length h1 h2]
  simp [publish]

/-- C8 witness: a concrete publish succeeds and is visible at once. -/
theorem publish_never_fails_witness :
    publishResult (Hub.mk 3 [uA] false) uB =
        Except.ok (publish (Hub.mk 3 [uA] false) uB)
      ∧ (publish (Hub.mk 3 [uA] false) uB).history = [uA] ++ [uB]
      ∧ recv (publish (Hub.mk 3 [uA] false) uB) 1 = (.ok uB, 2) :=
  ⟨(publish_never_fails (Hub.mk 3 [uA] false) uB).1,
   (publish_never_fails (Hub.mk 3 [uA] false) uB).2.1,
   (publish_never_fails (Hub.mk 3 [uA] false) uB).2.2 (by decide)⟩

/-- C9: a caught-up cursor receiving N freshly published events with
N ≤ capacity observes exactly those N events in publish order, with no
lag; and in general the data any cursor delivers is a suffix of the
global publish order (events are observed in the same relative order,
never reordered). -/
theorem ordering_exact_and_global (hub : Hub) (es : List StatusUpdate)
    (clk : Nat → Nat) (hcap : 0 < hub.capacity)
    (hn : es.length ≤ hub.capacity) :
    drain (close (publishAll hub es)) clk (subscribe hub) =
      (expectedFrames clk es, [], true)
    ∧ ∀ pos, pos ≤ hub.history.length →
        ((drain (close hub) clk pos).1.map WireFrame.data) <:+
          (hub.history.map StatusUpdate.as_json_str) := by
  constructor
  · rw [publishAll_def,
        show close { hub with history := hub.history ++ es } =
          Hub.mk hub.capacity (hub.history ++ es) true from rfl,
        show subscribe hub = hub.history.length from rfl,
        drain_spec (Hub.mk hub.capacity (hub.history ++ es) true) clk
          hub.history.length hcap (by simp)]
    have hole : oldestIdx (Hub.mk hub.capacity (hub.history ++ es) true) ≤
        hub.history.length := by
      simp only [oldestIdx, List.length_append]
      omega
    rw [Nat.max_eq_left hole, List.drop_left]
    simp [Nat.not_lt.mpr hole]
  · intro pos hp
    rw [show close hub = Hub.mk hub.capacity hub.history true from rfl,
        drain_spec (Hub.mk hub.capacity hub.history true) clk pos hcap hp]
    simp only [expectedFrames_map_data, List.map_drop]
    exact List.drop_suffix _ _

/-- C9 witness: a caught-up cursor sees one freshly published event
exactly, and its delivered data is a suffix of the publish order. -/
theorem ordering_exact_and_global_witness :
    drain (close (publishAll (Hub.mk 3 [uA] false) [uB])) (fun i => i)
        (subscribe (Hub.mk 3 [uA] false)) =
      (expectedFrames (fun i => i) [uB], [], true)
    ∧ ((drain (close (Hub.mk 3 [uA] false)) (fun i => i) 0).1.map
          WireFrame.data) <:+
        ((Hub.mk 3 [uA] false).history.map StatusUpdate.as_json_str) :=
  ⟨(ordering_exact_and_global (Hub.mk 3 [uA] false) [uB] (fun i => i)
      (by decide) (by decide)).1,
   (ordering_exact_and_global (Hub.mk 3 [uA] false) [uB] (fun i => i)
      (by decide) (by decide)).2 0 (Nat.zero_le _)⟩

/-- C10: the stream's item error type (`Infallible`) is uninhabited:
every item a poll of the unfold closure ever yields is an `Ok`-wrapped
wire frame, no error item can be produced, and the only other outcome is
the end of the stream. -/
theorem stream_items_infallible (hub : Hub) (now pos : Nat) :
    (∀ x p', sseUnfoldStep hub now pos = some (some (x, p')) →
        ∃ f, x = Except.ok f)
    ∧ ∀ e : Infallible, False := by
  constructor
  · intro x p' h
    rw [sseUnfoldStep] at h
    rcases hs : sseStep hub now pos with ⟨f', p2, l⟩ | ⟨l⟩ | ⟨p2, l⟩ <;>
      rw [hs] at h <;> simp at h
    exact ⟨f', h.1.symm⟩
  · intro e
    cases e

/-- C10 witness: a concrete yielded item is `Ok`-wrapped. -/
theorem stream_items_infallible_witness :
    ∃ f, (Except.ok (mkEvent uA 7) : Except Infallible WireFrame) =
      Except.ok f :=
  (stream_items_infallible (Hub.mk 10 [uA] true) 7 0).1
    (Except.ok (mkEvent uA 7)) 1 rfl
